import Mathlib

/-!
Verification of the comment-classification engine (`spam_filter.py`).

The Python module is shallowly embedded below.  Real numbers produced by the
Python float arithmetic are modelled as exact rationals (every constant in the
module is an exact decimal, and every comparison exercised by the theorems is
far from any float rounding boundary).  Strings are modelled as Lean `String` /
`List Char`.  The regular-expression based matchers of the pattern registry are
modelled as an abstract record of matching functions (`Regexes`) over which the
theorems quantify, except for the crypto-keyword matcher, whose exact
leftmost / first-alternative / non-overlapping `re` semantics is implemented
concretely because several claims depend on it.
-/

namespace SpamFilter

/-! ## Character tables (`CYRILLIC_TO_LATIN`, `LEETSPEAK_MAP`, `ZERO_WIDTH_CHARS`,
`FAKE_BADGE_CHARS` from `spam_filter.py`). -/

/-- `CYRILLIC_TO_LATIN`: visually-confusable Cyrillic/Greek letters mapped to
their Latin look-alikes.  Keys are written as unicode escapes to keep the
source unambiguous: e.g. `а` is the Cyrillic small a. -/
def cyrillicTable : List (Char × Char) :=
  [ ('а', 'a'), ('с', 'c'), ('е', 'e'), ('о', 'o'), ('р', 'p'),
    ('х', 'x'), ('у', 'y'), ('і', 'i'), ('ј', 'j'), ('ѕ', 's'),
    ('һ', 'h'), ('ԁ', 'd'), ('ԛ', 'q'), ('ԝ', 'w'), ('ᴦ', 'r'),
    ('А', 'A'), ('В', 'B'), ('С', 'C'), ('Е', 'E'), ('Н', 'H'),
    ('К', 'K'), ('М', 'M'), ('О', 'O'), ('Р', 'P'), ('Т', 'T'),
    ('Х', 'X'), ('У', 'Y'), ('І', 'I'),
    ('α', 'a'), ('ο', 'o'), ('ρ', 'p'), ('τ', 't'), ('υ', 'u'),
    ('ν', 'v'), ('ω', 'w'), ('χ', 'x') ]

/-- Lookup in `CYRILLIC_TO_LATIN` (`CYRILLIC_TO_LATIN.get(c, c)` uses
`(cyrillicToLatin c).getD c`). -/
def cyrillicToLatin (c : Char) : Option Char :=
  (cyrillicTable.find? (fun p => p.1 = c)).map (fun p => p.2)

/-- `LEETSPEAK_MAP`. -/
def leetTable : List (Char × Char) :=
  [ ('@', 'a'), ('4', 'a'), ('^', 'a'),
    ('8', 'b'),
    ('(', 'c'), ('<', 'c'), ('{', 'c'),
    ('3', 'e'), ('€', 'e'),
    ('6', 'g'), ('9', 'g'),
    ('#', 'h'),
    ('1', 'i'), ('!', 'i'), ('|', 'i'),
    ('0', 'o'), ('ø', 'o'),
    ('$', 's'), ('5', 's'),
    ('7', 't'), ('+', 't'),
    ('µ', 'u'),
    ('2', 'z') ]

def leetChar (c : Char) : Char :=
  (((leetTable.find? (fun p => p.1 = c)).map (fun p => p.2)).getD c)

/-- `ZERO_WIDTH_CHARS`. -/
def zwChars : List Char :=
  [ '\u200B', '\u200C', '\u200D', '\u2060', '\uFEFF', '\u00AD', '\u034F',
    '\u2061', '\u2062', '\u2063', '\u2064' ]

/-- `FAKE_BADGE_CHARS`. -/
def fakeBadgeChars : List Char :=
  [ '✓', '✔', '✅', '☑', Char.ofNat 0x1F535,
    '⚪', Char.ofNat 0x1F518, Char.ofNat 0x1F537, Char.ofNat 0x1F48E, '⭐' ]

/-- Python whitespace, as used by `str.strip()`, `str.split()` and the regex
`\s`.  (The ASCII whitespace characters plus the common Unicode space
characters; the exotic Unicode members play no role in any theorem below.) -/
def isPySpace (c : Char) : Bool :=
  [' ', '\t', '\n', '\r', '\u000B', '\u000C',
   '\u001C', '\u001D', '\u001E', '\u001F', '\u0085', '\u00A0', '\u1680',
   '\u2000', '\u2001', '\u2002', '\u2003', '\u2004', '\u2005', '\u2006',
   '\u2007', '\u2008', '\u2009', '\u200A', '\u2028', '\u2029', '\u202F',
   '\u205F', '\u3000'].contains c

/-- Word characters for the regex `\b` boundaries (`\w`).  Python's `\w` is
Unicode-aware; the ASCII approximation is exact on every string the theorems
below evaluate. -/
def isWordChar (c : Char) : Bool :=
  c.isAlphanum || c = '_'

/-! ## Small list utilities used throughout the embedding. -/

/-- `p` is a prefix of `l` (character lists). -/
def startsWithChars : List Char → List Char → Bool
  | [], _ => true
  | _ :: _, [] => false
  | p :: ps, c :: cs => p = c && startsWithChars ps cs

/-- `pat` occurs as a contiguous subsequence of `l` (Python `in` / an escaped
`re.search`). -/
def containsSeq (pat : List Char) : List Char → Bool
  | [] => pat.isEmpty
  | c :: cs => startsWithChars pat (c :: cs) || containsSeq pat cs

def toLowerChars (l : List Char) : List Char := l.map Char.toLower

/-- `str.strip()` (both-ends trim by Python whitespace). -/
def pyStrip (l : List Char) : List Char :=
  ((l.dropWhile isPySpace).reverse.dropWhile isPySpace).reverse

/-- `str.split()` with no separator: whitespace-run splitting, no empties. -/
def pyWordsGo : List Char → List Char → List (List Char)
  | [], acc => if acc.isEmpty then [] else [acc.reverse]
  | c :: cs, acc =>
    if isPySpace c then
      if acc.isEmpty then pyWordsGo cs [] else acc.reverse :: pyWordsGo cs []
    else pyWordsGo cs (c :: acc)

def pyWords (l : List Char) : List (List Char) := pyWordsGo l []

/-- `re.sub(r'\s+', ' ', s)`: every whitespace run becomes a single space.
The flag records whether the previous character was part of a whitespace run. -/
def collapseGo : Bool → List Char → List Char
  | _, [] => []
  | prevSpace, c :: cs =>
    if isPySpace c then
      if prevSpace then collapseGo true cs else ' ' :: collapseGo true cs
    else c :: collapseGo false cs

/-! ## Normalizer (`normalize_text`). -/

/-- The punctuation characters stripped by the deobfuscation step:
period, double quote, single quote, hyphen, underscore, backtick
(codepoints 46, 34, 39, 45, 95, 96). -/
def deobfPunct : List Char :=
  [Char.ofNat 46, Char.ofNat 34, Char.ofNat 39, Char.ofNat 45, Char.ofNat 95, Char.ofNat 96]

def punctCount (w : List Char) : Nat := (w.filter (fun c => deobfPunct.contains c)).length

/-- `char_count = sum(1 for c in word if c.isalnum())`.  Python's `isalnum`
is Unicode-aware; the ASCII approximation is exact on every string the
theorems below evaluate. -/
def alnumCount (w : List Char) : Nat := (w.filter Char.isAlphanum).length

/-- `deobfuscate_word` from `normalize_text` step 3.  The float comparison
`punct_count >= char_count * 0.4` is modelled exactly as
`2 * char_count <= 5 * punct_count` (for the integer counts that occur the
double-precision product `char_count * 0.4` rounds to exactly `2*char_count/5`
whenever that value is an integer, so the comparisons agree). -/
def deobfuscateWord (w : List Char) : List Char :=
  if w.length < 5 then w
  else if 2 * alnumCount w ≤ 5 * punctCount w && 2 ≤ punctCount w then
    w.filter (fun c => !deobfPunct.contains c)
  else w

/-- `unicodedata.normalize('NFKD', s)` followed by removal of combining marks.
Modelled as the identity: NFKD decomposition and the combining-class filter
are the identity on every character without a compatibility decomposition and
with combining class 0, which covers ASCII and all characters of
`cyrillicTable`, `leetTable` and `zwChars`; no theorem below evaluates the
normalizer on a character outside that repertoire. -/
def nfkdStrip (l : List Char) : List Char := l

/-- Steps 1 and 2 of `normalize_text`: remove zero-width characters, then map
homoglyphs through `CYRILLIC_TO_LATIN`. -/
def step12 (l : List Char) : List Char :=
  (l.filter (fun c => !zwChars.contains c)).map (fun c => (cyrillicToLatin c).getD c)

/-- Leftmost match of the URL splitter regex
`(https?://\S+|www\.\S+|t\.me/\S+|\S+\.ly/\S+)` at this position, returning
the length of the match.  Each alternative, when it matches at a position,
consumes exactly the maximal non-whitespace run starting there (each ends in a
greedy `\S+` with nothing after it), so the match length is the run length. -/
def hasDotLySplit (run : List Char) : Bool :=
  (List.range run.length).any fun k =>
    decide (1 ≤ k) && startsWithChars ['.', 'l', 'y', '/'] (run.drop k) &&
      decide (k + 4 < run.length)

def matchUrlAt (cs : List Char) : Option Nat :=
  let run := cs.takeWhile (fun c => !isPySpace c)
  if (startsWithChars "https://".data run && decide (8 < run.length))
      || (startsWithChars "http://".data run && decide (7 < run.length))
      || (startsWithChars "www.".data run && decide (4 < run.length))
      || (startsWithChars "t.me/".data run && decide (5 < run.length))
      || hasDotLySplit run then
    some run.length
  else none

/-- `re.split` with the URL splitter pattern: returns the alternating
list of non-matching and matching segments (both kept, as `re.split` with a
capture group does).  The fuel argument only bounds the recursion; every step
consumes at least one character, so `l.length + 1` fuel always suffices and
the function is total in the same way the Python scan is. -/
def splitUrlGo : Nat → List Char → List Char → List (List Char)
  | 0, acc, l => [acc.reverse ++ l]
  | _ + 1, acc, [] => [acc.reverse]
  | fuel + 1, acc, c :: cs =>
    match matchUrlAt (c :: cs) with
    | some n => acc.reverse :: (c :: cs).take n :: splitUrlGo fuel [] ((c :: cs).drop n)
    | none => splitUrlGo fuel (c :: acc) cs

def splitUrl (l : List Char) : List (List Char) := splitUrlGo (l.length + 1) [] l

/-- `normalize_segment` from `normalize_text` step 4. -/
def normalizeSegment (seg : List Char) : List Char :=
  if seg.contains '/' || startsWithChars "http".data seg || startsWithChars "www".data seg
      || startsWithChars "t.me".data seg || startsWithChars "bit.ly".data seg then
    seg
  else
    match seg with
    | '@' :: rest => if rest.isEmpty then seg else '@' :: normalizeSegment rest
    | _ => seg.map leetChar

/-- Step 4 of `normalize_text`: split on URL-like spans, keep spans that match
the URL pattern at position 0, leetspeak-fold the rest, and re-join. -/
def urlStep (l : List Char) : List Char :=
  ((splitUrl l).map fun seg =>
    if (matchUrlAt seg).isSome then seg else normalizeSegment seg).flatten

/-- Steps 2b–5 of `normalize_text` applied after `step12`. -/
def postNormalize (l : List Char) : List Char :=
  pyStrip (collapseGo false
    (urlStep (List.intercalate [' '] ((pyWords (nfkdStrip l)).map deobfuscateWord))))

def normalizeChars (l : List Char) : List Char := postNormalize (step12 l)

/-- `normalize_text`. -/
def normalizeText (s : String) : String := ⟨normalizeChars s.data⟩

/-- `has_homoglyph_obfuscation`. -/
def hasHomoglyphObfuscation (s : String) : Bool :=
  s.data.any (fun c => (cyrillicToLatin c).isSome)

/-- `has_fake_badge`. -/
def hasFakeBadge (s : String) : Bool :=
  s.data.any (fun c => fakeBadgeChars.contains c)

/-! ## The crypto-keyword matcher (`self.crypto_keywords`).

The pattern is `\b(alt₁|alt₂|…)\b` with `re.IGNORECASE`.  Matching is
implemented with Python `re` semantics: scan left to right, at each word
boundary try the alternatives in pattern order (a group like `(ing)?` is
expanded greedily, i.e. the longer variant first), accept the first
alternative whose literal parts match and whose trailing `\b` holds, and for
`findall` continue scanning after the end of the accepted match
(non-overlapping matches).  A `\s*` between literals matches the maximal
whitespace run (the following literal starts with a non-whitespace character,
so backtracking over the run cannot produce further matches). -/

/-- One piece of an expanded alternative: a literal, or a `\s*` gap. -/
inductive RPart where
  | lit : List Char → RPart
  | ws : RPart
deriving DecidableEq

/-- Helper: the expansion `[lit a, ws, lit b]` for `a\s*b` patterns. -/
def wsAlt (a b : String) : List RPart := [.lit a.data, .ws, .lit b.data]

/-- The alternatives of `self.crypto_keywords`, in pattern order, with the
internal groups expanded in backtracking order. -/
def cryptoExpansions : List (List RPart) :=
  [ [.lit "crypto".data], [.lit "bitcoin".data], [.lit "btc".data],
    [.lit "ethereum".data], [.lit "eth".data], [.lit "altcoin".data],
    [.lit "blockchain".data], [.lit "nft".data],
    [.lit "binance".data], [.lit "coinbase".data], [.lit "kraken".data],
    [.lit "kucoin".data], [.lit "bybit".data], [.lit "okx".data],
    [.lit "bitget".data], [.lit "mexc".data],
    [.lit "usdt".data], [.lit "usdc".data], [.lit "tether".data],
    [.lit "dogecoin".data], [.lit "doge".data], [.lit "shiba".data],
    [.lit "pepe".data],
    [.lit "defi".data], wsAlt "yield" "farm", [.lit "staking".data],
    [.lit "airdrop".data], [.lit "whitelist".data], [.lit "presale".data],
    [.lit "web3".data], [.lit "metaverse".data], [.lit "token".data],
    [.lit "ico".data], [.lit "ido".data],
    [.lit "forex".data], wsAlt "fx" "trading", wsAlt "binary" "option",
    wsAlt "trading" "signal", wsAlt "trading" "bot", wsAlt "trading" "group",
    [.lit "10x".data], [.lit "100x".data], [.lit "1000x".data],
    [.lit "mooning".data], [.lit "moon".data], [.lit "lambo".data],
    [.lit "hodl".data], [.lit "wagmi".data], [.lit "ngmi".data],
    [.lit "fomo".data], [.lit "fud".data] ]

/-- Match the parts of one expansion at the head of `cs`, returning the number
of consumed characters. -/
def matchParts : List RPart → List Char → Option Nat
  | [], _ => some 0
  | .lit s :: ps, cs =>
    if startsWithChars s cs then (matchParts ps (cs.drop s.length)).map (· + s.length)
    else none
  | .ws :: ps, cs =>
    let rest := cs.dropWhile isPySpace
    (matchParts ps rest).map (· + (cs.length - rest.length))

/-- The trailing `\b`: every alternative ends in a word character, so the
boundary holds iff the next character (if any) is not a word character. -/
def boundaryAfterOk : List Char → Bool
  | [] => true
  | c :: _ => !isWordChar c

/-- Try the expansions in order at the head of `cs`; the trailing boundary
failure of one expansion falls through to the next (regex backtracking). -/
def tryExps : List (List RPart) → List Char → Option Nat
  | [], _ => none
  | exp :: rest, cs =>
    match matchParts exp cs with
    | some n => if boundaryAfterOk (cs.drop n) then some n else tryExps rest cs
    | none => tryExps rest cs

/-- `re.findall`-style scan for the crypto pattern: `prev` is the character
just before the current position (`none` at the start of the string).  The
fuel argument only bounds the recursion; every step consumes at least one
character, so `l.length + 1` fuel always suffices. -/
def cryptoScanGo : Nat → Option Char → List Char → List (List Char)
  | 0, _, _ => []
  | _ + 1, _, [] => []
  | fuel + 1, prev, c :: cs =>
    if (match prev with | none => true | some p => !isWordChar p) then
      match tryExps cryptoExpansions (c :: cs) with
      | some n =>
        ((c :: cs).take n) :: cryptoScanGo fuel ((c :: cs).take n).getLast? ((c :: cs).drop n)
      | none => cryptoScanGo fuel (some c) cs
    else cryptoScanGo fuel (some c) cs

/-- All (leftmost, non-overlapping) crypto-keyword matches in `s`, lowercased
(`self.crypto_keywords.findall(normalized.lower())`; the pattern's only group
is the whole alternation, and `IGNORECASE` search agrees with matching on the
lowercased text). -/
def cryptoMatches (s : String) : List String :=
  (cryptoScanGo (s.data.length + 1) none (toLowerChars s.data)).map (fun l => ⟨l⟩)

/-- `self.crypto_keywords.search(normalized)`: the leftmost match (returned
lowercased; only its presence and the match count feed the result). -/
def cryptoSearch (s : String) : Option String := (cryptoMatches s).head?

/-- `len(all_matches)` in the crypto branch of `analyze`. -/
def cryptoCount (s : String) : Nat := (cryptoMatches s).length

/-! ## Data model (`SpamCategory`, `SpamSignal`, `LegitimacySignal`,
`SpamResult`). -/

inductive SpamCategory where
  | CRYPTO_SCAM | SEED_PHRASE_SCAM | FINANCIAL_SCAM | CONTACT_SOLICITATION
  | PLATFORM_REDIRECT | SELF_PROMOTION | BOOK_PROMOTION | CHANNEL_PROMOTION
  | PHISHING | BOT_PATTERN | IMPERSONATION | FAKE_PINNED | ADULT_CONTENT
  | ENGAGEMENT_BAIT | OBFUSCATION
deriving DecidableEq

structure SpamSignal where
  category : SpamCategory
  signal : String
  weight : ℚ
  matched_text : String
deriving DecidableEq

structure LegitimacySignal where
  signal : String
  bonus : ℚ
  matched_text : String
deriving DecidableEq

structure SpamResult where
  is_spam : Bool
  score : ℚ
  threshold : ℚ
  signals : List SpamSignal
  legitimacy_signals : List LegitimacySignal
  categories : List SpamCategory
  normalized_text : String
  had_obfuscation : Bool
deriving DecidableEq

/-! ## Detector configuration (`SpamDetector.__init__`,
`_compile_custom_patterns`, `_check_whitelist`, `_check_blacklist`). -/

structure Detector where
  threshold : ℚ
  blacklistPatterns : List String
  whitelistPatterns : List String
deriving DecidableEq

/-- `SpamDetector(threshold, blacklist_patterns, whitelist_patterns)`:
the threshold is clamped to `[0,1]` at construction. -/
def mkDetector (threshold : ℚ) (bl wl : List String) : Detector :=
  ⟨max 0 (min 1 threshold), bl, wl⟩

/-- `_compile_custom_patterns`: each phrase is stripped, dropped when empty,
and compiled with `re.escape` + `re.IGNORECASE`, i.e. it matches as a
case-insensitive literal substring.  (`re.compile` cannot fail on an escaped
literal, so the `re.error` branch is dead.) -/
def compiledPats (pats : List String) : List String :=
  pats.filterMap fun p =>
    let q : List Char := pyStrip p.data
    if q.isEmpty then none else some ⟨q⟩

/-- Case-insensitive substring test: `pattern.search(text)` for an escaped
literal pattern. -/
def matchesPattern (p : String) (text : String) : Bool :=
  containsSeq (toLowerChars p.data) (toLowerChars text.data)

/-- `_check_whitelist`. -/
def checkWhitelist (pats : List String) (text : String) : Bool :=
  (compiledPats pats).any (fun p => matchesPattern p text)

/-- `_check_blacklist`.  The code returns `match.group(0)` (the slice of the
text); we return the first matching pattern, which is that slice up to letter
case. -/
def checkBlacklist (pats : List String) (text : String) : Option String :=
  (compiledPats pats).find? (fun p => matchesPattern p text)

/-! ## Abstract pattern registry.

Each field is the result of the corresponding compiled regex applied by
`analyze` (`Option String` for a `search` whose `match.group(0)` is kept,
`Bool` where only the truthiness is used).  The crypto-keyword matcher is not
a field: it is the concrete `cryptoSearch`/`cryptoCount` above.  Theorems
below quantify over this record, so they hold in particular for the matchers
compiled from the Python pattern texts. -/
structure Regexes where
  seedPhraseScam : String → Option String
  financialPromises : String → Option String
  contactSolicitation : String → Option String
  platformRedirect : String → Option String
  phonePatterns : String → Bool
  emailPattern : String → Bool
  channelPromotion : String → Option String
  selfPromoPhrases : String → Option String
  bookPromotion : String → Option String
  urlPattern : String → Bool
  shortenedUrls : String → Option String
  botGenericPhrases : String → Option String
  botTemplateMarkers : String → Option String
  fakePinned : String → Option String
  impersonationSuffixes : String → Option String
  adultContent : String → Bool
  engagementBait : String → Option String
  timestampPattern : String → Option String
  questionPattern : String → Bool
  genuineDiscussion : String → Option String
  replyPattern : String → Bool
  balancedFeedback : String → Option String
  educationalContext : String → Option String

/-! ## Score combination. -/

/-- `sorted([...], reverse=True)` on the signal weights. -/
def sortDesc (ws : List ℚ) : List ℚ := List.insertionSort (· ≥ ·) ws

/-- The discounted tail sum: each remaining weight `w` at 1-indexed rank `i`
contributes `w * 0.5 ^ i`. -/
def discountedSum : List ℚ → Nat → ℚ
  | [], _ => 0
  | w :: rest, i => w * (1 / 2 : ℚ) ^ i + discountedSum rest (i + 1)

/-- The pre-clamp combined weight: highest weight plus the discounted sum of
the remaining weights in descending order. -/
def rawBaseScore (ws : List ℚ) : ℚ :=
  match sortDesc ws with
  | [] => 0
  | w :: rest => w + discountedSum rest 1

/-- The base score of `analyze` (`min(base_score, 1.0)`, and `0.0` for an
empty signal list). -/
def baseScoreOf (ws : List ℚ) : ℚ :=
  match sortDesc ws with
  | [] => 0
  | w :: rest => min (w + discountedSum rest 1) 1

/-- Python's `round(x, 3)` (round half to even), modelled on exact rationals:
the integer nearest to `q`, ties to the even integer. -/
def roundHalfEven (q : ℚ) : ℤ :=
  let f := ⌊q⌋
  let r := q - f
  if r < 1 / 2 then f
  else if 1 / 2 < r then f + 1
  else if f % 2 = 0 then f else f + 1

def round3 (q : ℚ) : ℚ := (roundHalfEven (q * 1000) : ℚ) / 1000

/-! ## Signal evaluation (`analyze`, full pipeline). -/

/-- A conditional singleton produced by an `if match:` block. -/
def optChunk {α : Type} (o : Option String) (f : String → α) : List α :=
  match o with
  | some m => [f m]
  | none => []

/-- A conditional singleton produced by an `if predicate:` block. -/
def boolChunk {α : Type} (b : Bool) (x : α) : List α :=
  if b then [x] else []

/-- The crypto signal appended when `self.crypto_keywords.search(normalized)`
matches: weight `min(0.35 + match_count * 0.08, 0.65)`. -/
def cryptoSignalOf (n : String) (m : String) : SpamSignal :=
  ⟨.CRYPTO_SCAM, "Crypto/trading keywords (" ++ toString (cryptoCount n) ++ "x)",
    min ((35 : ℚ) / 100 + (cryptoCount n : ℚ) * (8 / 100)) (65 / 100), m⟩

/-- The spam-signal list built by the full pipeline of `analyze`, in the order
the code appends them (`n` is the normalized text, `hadObf` the result of the
pre-normalization homoglyph check). -/
def spamSignals (R : Regexes) (text author n : String) (hadObf : Bool) : List SpamSignal :=
  boolChunk hadObf
    ⟨.OBFUSCATION, "Homoglyph obfuscation detected", 3 / 10, "[cyrillic/greek characters]"⟩
  ++ optChunk (R.seedPhraseScam n)
    (fun m => ⟨.SEED_PHRASE_SCAM, "Seed phrase / wallet scam pattern", 75 / 100, m⟩)
  ++ optChunk (cryptoSearch n) (cryptoSignalOf n)
  ++ optChunk (R.financialPromises n)
    (fun m => ⟨.FINANCIAL_SCAM, "Financial promises/guarantees", 6 / 10, m⟩)
  ++ (match R.platformRedirect n with
      | some m => [⟨.PLATFORM_REDIRECT, "Platform redirect link", 55 / 100, m⟩]
      | none => optChunk (R.contactSolicitation n)
          (fun m => ⟨.CONTACT_SOLICITATION, "Contact solicitation", 45 / 100, m⟩))
  ++ boolChunk (R.phonePatterns text)
    ⟨.CONTACT_SOLICITATION, "Phone number detected", 4 / 10, "[phone number]"⟩
  ++ boolChunk (R.emailPattern n)
    ⟨.CONTACT_SOLICITATION, "Email address detected", 2 / 10, "[email]"⟩
  ++ optChunk (R.fakePinned n)
    (fun m => ⟨.FAKE_PINNED, "Fake pinned comment pattern", 65 / 100, m⟩)
  ++ (if author.isEmpty then []
      else boolChunk (hasFakeBadge author)
        ⟨.IMPERSONATION, "Fake verification badge in username", 5 / 10, "[badge character]"⟩
      ++ optChunk (R.impersonationSuffixes author)
        (fun m => ⟨.IMPERSONATION, "Suspicious username suffix", 25 / 100, m⟩))
  ++ optChunk (R.channelPromotion n)
    (fun m => ⟨.CHANNEL_PROMOTION, "Channel/profile promotion", 4 / 10, m⟩)
  ++ optChunk (R.selfPromoPhrases n)
    (fun m => ⟨.SELF_PROMOTION, "Self-promotion phrases", 3 / 10, m⟩)
  ++ optChunk (R.bookPromotion n)
    (fun m => ⟨.BOOK_PROMOTION, "Book/product promotion", 45 / 100, m⟩)
  ++ (match R.shortenedUrls n with
      | some m => [⟨.PHISHING, "Shortened URL (suspicious)", 4 / 10, m⟩]
      | none => boolChunk (R.urlPattern n)
          ⟨.SELF_PROMOTION, "URL detected", 15 / 100, "[url]"⟩)
  ++ (match R.botTemplateMarkers n with
      | some m => [⟨.BOT_PATTERN, "Template markers detected", 7 / 10, m⟩]
      | none => optChunk (R.botGenericPhrases n)
          (fun m => ⟨.BOT_PATTERN, "Generic bot-like phrase", 2 / 10, m⟩))
  ++ boolChunk (R.adultContent n)
    ⟨.ADULT_CONTENT, "Adult/inappropriate content", 6 / 10, "[adult content]"⟩
  ++ optChunk (R.engagementBait n)
    (fun m => ⟨.ENGAGEMENT_BAIT, "Engagement bait", 15 / 100, m⟩)

/-- The engagement-based legitimacy block of `analyze` (`like_count >= 10`,
with the `-0.10` cap when the pre-bonus base score is at least `0.55`). -/
def engagementSignals (likeCount : Int) (base : ℚ) : List LegitimacySignal :=
  if 10 ≤ likeCount then
    let rawBonus : ℚ := if 100 ≤ likeCount then -(25 / 100) else -(1 / 10)
    let sigText : String :=
      if 100 ≤ likeCount then "High engagement (" ++ toString likeCount ++ " likes)"
      else "Community validated (" ++ toString likeCount ++ " likes)"
    let actualBonus : ℚ :=
      if 55 / 100 ≤ base then max rawBonus (-(1 / 10)) else rawBonus
    let sigText' : String :=
      if 55 / 100 ≤ base ∧ actualBonus ≠ rawBonus then
        sigText ++ " [capped - high spam signals]"
      else sigText
    [⟨sigText', actualBonus, toString likeCount ++ " likes"⟩]
  else []

/-- The legitimacy-signal list built by the full pipeline of `analyze`
(`sigCount` is the length of the spam-signal list, `base` the pre-bonus base
score). -/
def legitSignals (R : Regexes) (text n : String) (sigCount : Nat) (base : ℚ)
    (likeCount : Int) : List LegitimacySignal :=
  optChunk (R.timestampPattern text)
    (fun m => ⟨"Video timestamp reference", -(25 / 100), m⟩)
  ++ boolChunk (R.replyPattern text) ⟨"Reply to specific user", -(15 / 100), "[@username]"⟩
  ++ boolChunk (R.questionPattern n) ⟨"Asks a question", -(15 / 100), "[question]"⟩
  ++ optChunk (R.genuineDiscussion n) (fun m => ⟨"Genuine discussion", -(2 / 10), m⟩)
  ++ optChunk (R.balancedFeedback n) (fun m => ⟨"Balanced feedback", -(1 / 10), m⟩)
  ++ optChunk (R.educationalContext n) (fun m => ⟨"Educational context", -(2 / 10), m⟩)
  ++ boolChunk (decide ((pyStrip text.data).length < 30) && decide (sigCount = 0))
    ⟨"Short harmless comment", -(1 / 10), ""⟩
  ++ boolChunk (decide (200 < (pyStrip text.data).length) && decide (sigCount ≤ 1))
    ⟨"Long thoughtful comment", -(15 / 100), ""⟩
  ++ engagementSignals likeCount base

/-- The spam-signal list of the full pipeline for a given raw text. -/
def fullSignals (R : Regexes) (text author : String) : List SpamSignal :=
  spamSignals R text author (normalizeText text) (hasHomoglyphObfuscation text)

def fullBase (R : Regexes) (text author : String) : ℚ :=
  baseScoreOf ((fullSignals R text author).map (fun s => s.weight))

def fullLegit (R : Regexes) (text author : String) (likeCount : Int) :
    List LegitimacySignal :=
  legitSignals R text (normalizeText text) (fullSignals R text author).length
    (fullBase R text author) likeCount

def fullAdjustment (R : Regexes) (text author : String) (likeCount : Int) : ℚ :=
  ((fullLegit R text author likeCount).map (fun s => s.bonus)).sum

/-- `final_score = max(0.0, min(1.0, base_score + adjustment))`. -/
def finalScore (R : Regexes) (text author : String) (likeCount : Int) : ℚ :=
  max 0 (min 1 (fullBase R text author + fullAdjustment R text author likeCount))

/-- The full-pipeline branch of `analyze` (steps 1–2 and everything after). -/
def fullAnalyze (R : Regexes) (d : Detector) (text author : String)
    (likeCount : Int) : SpamResult :=
  { is_spam := decide (d.threshold ≤ finalScore R text author likeCount)
    score := round3 (finalScore R text author likeCount)
    threshold := d.threshold
    signals := fullSignals R text author
    legitimacy_signals := fullLegit R text author likeCount
    categories := ((fullSignals R text author).map (fun s => s.category)).dedup
    normalized_text := normalizeText text
    had_obfuscation := hasHomoglyphObfuscation text }

/-- `SpamDetector.analyze(text, author_name, like_count)` — the whole
decision procedure: empty input, whitelist short-circuit, blacklist
short-circuit, then the full pipeline.  (`not text or not text.strip()` is
exactly "every character is whitespace".) -/
def analyze (R : Regexes) (d : Detector) (text author : String)
    (likeCount : Int) : SpamResult :=
  if text.data.all isPySpace then
    { is_spam := false, score := 0, threshold := d.threshold, signals := []
      legitimacy_signals := [], categories := [], normalized_text := ""
      had_obfuscation := false }
  else if checkWhitelist d.whitelistPatterns text then
    { is_spam := false, score := 0, threshold := d.threshold, signals := []
      legitimacy_signals := [⟨"Matched whitelist pattern", -1, "[whitelisted]"⟩]
      categories := [], normalized_text := text, had_obfuscation := false }
  else
    match checkBlacklist d.blacklistPatterns text with
    | some m =>
      { is_spam := true, score := 1, threshold := d.threshold
        signals := [⟨.BOT_PATTERN, "Matched blacklist pattern", 1, m⟩]
        legitimacy_signals := [], categories := [.BOT_PATTERN]
        normalized_text := text, had_obfuscation := false }
    | none => fullAnalyze R d text author likeCount

/-- `is_spam` convenience wrapper (`SpamDetector.is_spam`). -/
def isSpamCheck (R : Regexes) (d : Detector) (text author : String) (likeCount : Int) : Bool :=
  (analyze R d text author likeCount).is_spam

/-- `get_spam_score` convenience wrapper. -/
def getSpamScore (R : Regexes) (d : Detector) (text author : String) (likeCount : Int) : ℚ :=
  (analyze R d text author likeCount).score

/-! ## Homoglyph substitution.

`homoglyphSubstB t' t` holds when `t'` arises from `t` by replacing, at any
subset of positions, the character by a confusable letter that
`CYRILLIC_TO_LATIN` maps back to it (all other positions unchanged). -/
def homoglyphSubstB : List Char → List Char → Bool
  | [], [] => true
  | c' :: l', c :: l =>
    (decide (c' = c) || decide (cyrillicToLatin c' = some c)) && homoglyphSubstB l' l
  | _, _ => false

/-! ## Concrete fixtures used by witnesses and counterexamples. -/

/-- A registry in which no abstract matcher fires. -/
def noMatchRegexes : Regexes :=
  { seedPhraseScam := fun _ => none, financialPromises := fun _ => none,
    contactSolicitation := fun _ => none, platformRedirect := fun _ => none,
    phonePatterns := fun _ => false, emailPattern := fun _ => false,
    channelPromotion := fun _ => none, selfPromoPhrases := fun _ => none,
    bookPromotion := fun _ => none, urlPattern := fun _ => false,
    shortenedUrls := fun _ => none, botGenericPhrases := fun _ => none,
    botTemplateMarkers := fun _ => none, fakePinned := fun _ => none,
    impersonationSuffixes := fun _ => none, adultContent := fun _ => false,
    engagementBait := fun _ => none, timestampPattern := fun _ => none,
    questionPattern := fun _ => false, genuineDiscussion := fun _ => none,
    replyPattern := fun _ => false, balancedFeedback := fun _ => none,
    educationalContext := fun _ => none }

/-- A registry firing contact solicitation, self-promotion phrases, a generic
URL and engagement bait — the behaviour of the compiled patterns on a message
such as "dm me check this out example.com/x like if you", giving the four
signal weights 0.45, 0.3, 0.15, 0.15. -/
def cexRegexes : Regexes :=
  { noMatchRegexes with
    contactSolicitation := fun _ => some "dm me",
    selfPromoPhrases := fun _ => some "check this out",
    urlPattern := fun _ => true,
    engagementBait := fun _ => some "like if you" }

/-- A registry in which each of the three stronger matchers of the
mutually-favoring pairs fires together with its weaker counterpart. -/
def pairRegexes : Regexes :=
  { noMatchRegexes with
    platformRedirect := fun _ => some "t.me/chan",
    contactSolicitation := fun _ => some "dm me",
    shortenedUrls := fun _ => some "bit.ly/x",
    urlPattern := fun _ => true,
    botTemplateMarkers := fun _ => some "[name]",
    botGenericPhrases := fun _ => some "this changed my life" }

def cexDetector : Detector := mkDetector (6562 / 10000) [] []

def stdDetector : Detector := mkDetector (1 / 2) [] []

def customDetector : Detector := mkDetector (1 / 2) ["spam"] ["good"]

/-- "bitcоin": the crypto keyword "bitcoin" with the Cyrillic letter о
(U+043E) substituted for the Latin o. -/
def hgBitcoin : String := ⟨['b', 'i', 't', 'c', 'о', 'i', 'n']⟩

/-- "а good": contains the whitelisted phrase "good" and the Cyrillic letter
а (U+0430). -/
def hgAllowText : String := ⟨['а', ' ', 'g', 'o', 'o', 'd']⟩

/-- "а spam": contains the blacklisted phrase "spam" and the Cyrillic letter
а (U+0430). -/
def hgDenyText : String := ⟨['а', ' ', 's', 'p', 'a', 'm']⟩

/-! ## Helper lemmas. -/

theorem mem_optChunk {α : Type} {o : Option String} {f : String → α} {s : α} :
    s ∈ optChunk o f ↔ ∃ m, o = some m ∧ s = f m := by
  cases o <;> simp [optChunk]

theorem mem_boolChunk {α : Type} {b : Bool} {x s : α} :
    s ∈ boolChunk b x ↔ b = true ∧ s = x := by
  cases b <;> simp [boolChunk]

theorem mem_if_nil {α : Type} {b : Bool} {l : List α} {s : α} :
    s ∈ (if b then ([] : List α) else l) ↔ b = false ∧ s ∈ l := by
  cases b <;> simp

theorem forall_optChunk {α : Type} {P : α → Prop} {o : Option String} {f : String → α}
    (h : ∀ m, P (f m)) : ∀ s ∈ optChunk o f, P s := by
  cases o with
  | none => simp [optChunk]
  | some m => simpa [optChunk] using h m

theorem forall_boolChunk {α : Type} {P : α → Prop} {b : Bool} {x : α}
    (h : P x) : ∀ s ∈ boolChunk b x, P s := by
  cases b with
  | false => simp [boolChunk]
  | true => simpa [boolChunk] using h

theorem cryptoSearch_isSome_count {s : String} {m : String}
    (h : cryptoSearch s = some m) : 1 ≤ cryptoCount s := by
  unfold cryptoSearch at h
  unfold cryptoCount
  cases hm : cryptoMatches s with
  | nil => rw [hm] at h; simp at h
  | cons a l => simp [hm]

/-- Facts about the homoglyph table needed for the normalization argument:
no key or value is a zero-width character, no value (a Latin letter) is
itself a key, and no key is whitespace. -/
theorem cyrillicTable_facts : ∀ p ∈ cyrillicTable,
    zwChars.contains p.1 = false ∧ zwChars.contains p.2 = false ∧
    cyrillicToLatin p.2 = none ∧ isPySpace p.1 = false := by decide

theorem cyrillicToLatin_pair {c c₀ : Char} (h : cyrillicToLatin c = some c₀) :
    (c, c₀) ∈ cyrillicTable := by
  unfold cyrillicToLatin at h
  cases hf : cyrillicTable.find? (fun p => p.1 = c) with
  | none => rw [hf] at h; simp at h
  | some p =>
    rw [hf] at h
    simp only [Option.map_some', Option.some.injEq] at h
    have hmem := List.mem_of_find?_eq_some hf
    have hp := List.find?_some hf
    simp only [decide_eq_true_eq] at hp
    have : p = (c, c₀) := by
      cases p
      simp only at hp h
      simp [hp, h]
    rwa [this] at hmem

/-- Key step of the homoglyph claim: substituting confusable letters does not
change the result of the first two normalization steps. -/
theorem step12_homoglyphSubst {l' l : List Char} (h : homoglyphSubstB l' l = true) :
    step12 l' = step12 l := by
  induction l' generalizing l with
  | nil =>
    cases l with
    | nil => rfl
    | cons c cs => simp [homoglyphSubstB] at h
  | cons c' cs' ih =>
    cases l with
    | nil => simp [homoglyphSubstB] at h
    | cons c cs =>
      simp only [homoglyphSubstB, Bool.and_eq_true, Bool.or_eq_true, decide_eq_true_eq] at h
      obtain ⟨hhead, htail⟩ := h
      have hrest := ih htail
      rcases hhead with rfl | hsub
      · simp only [step12, List.filter_cons] at hrest ⊢
        split
        · simp only [List.map_cons, List.cons.injEq]
          exact ⟨trivial, by simpa [step12] using hrest⟩
        · simpa [step12] using hrest
      · have hpair := cyrillicToLatin_pair hsub
        have hfacts := cyrillicTable_facts _ hpair
        simp only at hfacts
        obtain ⟨hzw1, hzw2, hvalnone, _⟩ := hfacts
        simp only [step12, List.filter_cons, hzw1, hzw2, Bool.not_false, if_pos]
        simp only [List.map_cons, hsub, hvalnone, Option.getD_some, Option.getD_none,
          List.cons.injEq]
        exact ⟨trivial, by simpa [step12] using hrest⟩

theorem normalizeText_homoglyphSubst {t' t : String}
    (h : homoglyphSubstB t'.data t.data = true) :
    normalizeText t' = normalizeText t := by
  unfold normalizeText normalizeChars
  rw [step12_homoglyphSubst h]

/-- A string containing a confusable letter is neither blank nor empty. -/
theorem homoglyph_not_blank {t : String} {c : Char}
    (hc : c ∈ t.data) (hs : (cyrillicToLatin c).isSome) :
    t.data.all isPySpace = false := by
  cases ho : cyrillicToLatin c with
  | none => rw [ho] at hs; simp at hs
  | some c₀ =>
    have hpair := cyrillicToLatin_pair ho
    have hfacts := cyrillicTable_facts _ hpair
    simp only at hfacts
    by_contra hall
    have hall' : t.data.all isPySpace = true := by
      cases h : t.data.all isPySpace
      · exact absurd h hall
      · rfl
    rw [List.all_eq_true] at hall'
    have := hall' c hc
    rw [hfacts.2.2.2] at this
    exact absurd this (by simp)

theorem hasHomoglyph_of_mem {t : String} {c : Char}
    (hc : c ∈ t.data) (hs : (cyrillicToLatin c).isSome) :
    hasHomoglyphObfuscation t = true := by
  unfold hasHomoglyphObfuscation
  rw [List.any_eq_true]
  exact ⟨c, hc, hs⟩

/-- Reduction of `analyze` to the full pipeline when no short-circuit fires. -/
theorem analyze_eq_full {R : Regexes} {d : Detector} {text author : String} {likes : Int}
    (h1 : text.data.all isPySpace = false)
    (h2 : checkWhitelist d.whitelistPatterns text = false)
    (h3 : checkBlacklist d.blacklistPatterns text = none) :
    analyze R d text author likes = fullAnalyze R d text author likes := by
  simp [analyze, h1, h2, h3]

/-- `roundHalfEven` bounds. -/
theorem roundHalfEven_nonneg {q : ℚ} (h : 0 ≤ q) : 0 ≤ roundHalfEven q := by
  unfold roundHalfEven
  dsimp only
  have hf : (0 : ℤ) ≤ ⌊q⌋ := by
    rw [Int.le_floor]
    simpa using h
  split_ifs <;> omega

theorem roundHalfEven_le {q : ℚ} {n : ℤ} (h : q ≤ (n : ℚ)) : roundHalfEven q ≤ n := by
  unfold roundHalfEven
  dsimp only
  have hf : ⌊q⌋ ≤ n := by
    calc ⌊q⌋ ≤ ⌊(n : ℚ)⌋ := Int.floor_le_floor h
    _ = n := Int.floor_intCast n
  have hfloor : (⌊q⌋ : ℚ) ≤ q := Int.floor_le q
  split_ifs with hr1 hr2 hev
  · exact hf
  · -- the fraction exceeds 1/2, so the floor is strictly below n
    have hne : ⌊q⌋ ≠ n := by
      intro hcontra
      rw [hcontra] at hfloor
      have : q - (n : ℚ) ≤ 0 := by linarith
      rw [hcontra] at hr2
      linarith
    omega
  · exact hf
  · -- the fraction is exactly 1/2, so the floor is strictly below n
    have hne : ⌊q⌋ ≠ n := by
      intro hcontra
      rw [hcontra] at hfloor
      have hhalf : q - (n : ℚ) = 1 / 2 := by
        rw [← hcontra]
        linarith
      linarith
    omega

theorem round3_nonneg {q : ℚ} (h : 0 ≤ q) : 0 ≤ round3 q := by
  unfold round3
  have := roundHalfEven_nonneg (q := q * 1000) (by positivity)
  positivity

theorem round3_le_one {q : ℚ} (h : q ≤ 1) : round3 q ≤ 1 := by
  unfold round3
  have h1000 : q * 1000 ≤ ((1000 : ℤ) : ℚ) := by push_cast; linarith
  have := roundHalfEven_le h1000
  rw [div_le_one (by norm_num)]
  exact_mod_cast this

/-! ## Claim theorems. -/

/-- Claim C9: for every input text that is empty or consists only of
whitespace, `analyze` returns a decision record with score `0.0`, `is_spam`
false, an empty spam-signal list and an empty legitimacy-signal list (and, as
the code also fixes, empty categories, empty normalized text and no
obfuscation flag). -/
theorem analyze_blank_input (R : Regexes) (d : Detector) (text author : String)
    (likes : Int) (h : text.data.all isPySpace = true) :
    analyze R d text author likes =
      { is_spam := false, score := 0, threshold := d.threshold, signals := []
        legitimacy_signals := [], categories := [], normalized_text := ""
        had_obfuscation := false } := by
  simp [analyze, h]

theorem analyze_blank_input_witness :
    "  ".data.all isPySpace = true ∧
    analyze noMatchRegexes stdDetector "  " "" 0 =
      { is_spam := false, score := 0, threshold := stdDetector.threshold, signals := []
        legitimacy_signals := [], categories := [], normalized_text := ""
        had_obfuscation := false } :=
  ⟨by decide, analyze_blank_input noMatchRegexes stdDetector "  " "" 0 (by decide)⟩

/-- Claim C3: for every non-blank input text, an allow-phrase match yields the
not-spam, score-0 record with exactly the one whitelist legitimacy signal and
no spam signals, regardless of anything else in the text (in particular even
when a deny-phrase also matches, since the allow check is performed first);
otherwise a deny-phrase match yields the is-spam, score-1 record with exactly
one weight-1 signal recording the match. -/
theorem analyze_custom_phrase_shortcircuit (R : Regexes) (d : Detector)
    (text author : String) (likes : Int)
    (hne : text.data.all isPySpace = false) :
    (checkWhitelist d.whitelistPatterns text = true →
      analyze R d text author likes =
        { is_spam := false, score := 0, threshold := d.threshold, signals := []
          legitimacy_signals := [⟨"Matched whitelist pattern", -1, "[whitelisted]"⟩]
          categories := [], normalized_text := text, had_obfuscation := false }) ∧
    (∀ m, checkWhitelist d.whitelistPatterns text = false →
      checkBlacklist d.blacklistPatterns text = some m →
      analyze R d text author likes =
        { is_spam := true, score := 1, threshold := d.threshold
          signals := [⟨.BOT_PATTERN, "Matched blacklist pattern", 1, m⟩]
          legitimacy_signals := [], categories := [.BOT_PATTERN]
          normalized_text := text, had_obfuscation := false }) := by
  constructor
  · intro hw
    simp [analyze, hne, hw]
  · intro m hw hb
    simp [analyze, hne, hw, hb]

theorem analyze_custom_phrase_shortcircuit_witness :
    (analyze noMatchRegexes customDetector "some GOOD crypto stuff" "" 0 =
      { is_spam := false, score := 0, threshold := customDetector.threshold, signals := []
        legitimacy_signals := [⟨"Matched whitelist pattern", -1, "[whitelisted]"⟩]
        categories := [], normalized_text := "some GOOD crypto stuff"
        had_obfuscation := false }) ∧
    (analyze noMatchRegexes customDetector "this is SPAM here" "" 0 =
      { is_spam := true, score := 1, threshold := customDetector.threshold
        signals := [⟨.BOT_PATTERN, "Matched blacklist pattern", 1, "spam"⟩]
        legitimacy_signals := [], categories := [.BOT_PATTERN]
        normalized_text := "this is SPAM here", had_obfuscation := false }) :=
  ⟨(analyze_custom_phrase_shortcircuit noMatchRegexes customDetector
      "some GOOD crypto stuff" "" 0 (by decide)).1 (by decide),
   (analyze_custom_phrase_shortcircuit noMatchRegexes customDetector
      "this is SPAM here" "" 0 (by decide)).2 "spam" (by decide) (by decide)⟩

/-- Claim C10: on both custom-phrase short-circuits the returned record's
`normalized_text` is the raw, un-normalized input and `had_obfuscation` is
false — even when the input contains confusable characters — and the
deny-list record's single signal carries the bot-pattern category. -/
theorem analyze_shortcircuit_fields (R : Regexes) (d : Detector)
    (text author : String) (likes : Int)
    (hne : text.data.all isPySpace = false) :
    (checkWhitelist d.whitelistPatterns text = true →
      (analyze R d text author likes).normalized_text = text ∧
      (analyze R d text author likes).had_obfuscation = false) ∧
    (∀ m, checkWhitelist d.whitelistPatterns text = false →
      checkBlacklist d.blacklistPatterns text = some m →
      (analyze R d text author likes).normalized_text = text ∧
      (analyze R d text author likes).had_obfuscation = false ∧
      (analyze R d text author likes).signals.map (fun s => s.category) =
        [.BOT_PATTERN]) := by
  constructor
  · intro hw
    simp [analyze, hne, hw]
  · intro m hw hb
    simp [analyze, hne, hw, hb]

theorem analyze_shortcircuit_fields_witness :
    ((analyze noMatchRegexes customDetector hgAllowText "" 0).normalized_text = hgAllowText ∧
     (analyze noMatchRegexes customDetector hgAllowText "" 0).had_obfuscation = false) ∧
    ((analyze noMatchRegexes customDetector hgDenyText "" 0).normalized_text = hgDenyText ∧
     (analyze noMatchRegexes customDetector hgDenyText "" 0).had_obfuscation = false ∧
     (analyze noMatchRegexes customDetector hgDenyText "" 0).signals.map (fun s => s.category) =
       [.BOT_PATTERN]) :=
  ⟨(analyze_shortcircuit_fields noMatchRegexes customDetector hgAllowText "" 0
      (by decide)).1 (by decide),
   (analyze_shortcircuit_fields noMatchRegexes customDetector hgDenyText "" 0
      (by decide)).2 "spam" (by decide) (by decide)⟩

/-- Claim C4: for every non-empty list of spam-signal weights the base score
is the highest weight plus the remaining weights in descending order, each
discounted by one-half raised to its 1-indexed rank, clamped to at most 1;
and for two signals of equal (positive) weight `w` the pre-clamp combined
weight is exactly `1.5 * w`, strictly less than `2 * w`. -/
theorem baseScore_diminishing_returns (ws : List ℚ) (w : ℚ)
    (hws : ws ≠ []) (hw : 0 < w) :
    (∃ l, l.Perm ws ∧ List.Sorted (· ≥ ·) l ∧ (∀ x ∈ ws, x ≤ l.headD 0) ∧
      baseScoreOf ws = min (l.headD 0 + discountedSum l.tail 1) 1) ∧
    rawBaseScore [w, w] = 3 / 2 * w ∧ rawBaseScore [w, w] < 2 * w := by
  have hperm : List.Perm (sortDesc ws) ws := List.perm_insertionSort _ ws
  have hsorted : List.Sorted (· ≥ ·) (sortDesc ws) := List.sorted_insertionSort _ ws
  have hraw : rawBaseScore [w, w] = 3 / 2 * w := by
    unfold rawBaseScore sortDesc
    simp only [List.insertionSort, List.orderedInsert, ge_iff_le, le_refl, if_pos]
    simp only [discountedSum]
    ring
  refine ⟨⟨sortDesc ws, hperm, hsorted, ?_, ?_⟩, hraw, by rw [hraw]; linarith⟩
  · intro x hx
    have hx' : x ∈ sortDesc ws := hperm.mem_iff.2 hx
    cases hs : sortDesc ws with
    | nil => rw [hs] at hx'; simp at hx'
    | cons a t =>
      rw [hs] at hx' hsorted
      simp only [List.headD_cons]
      rcases List.mem_cons.1 hx' with rfl | hx'
      · exact le_refl x
      · exact List.rel_of_sorted_cons hsorted x hx'
  · cases hs : sortDesc ws with
    | nil =>
      have h0 : List.Perm ws ([] : List ℚ) := hs ▸ hperm.symm
      exact absurd h0.eq_nil hws
    | cons a t =>
      unfold baseScoreOf
      rw [hs]
      simp

theorem baseScore_diminishing_returns_witness :
    (∃ l, l.Perm [(1 : ℚ) / 2] ∧ List.Sorted (· ≥ ·) l ∧
      (∀ x ∈ [(1 : ℚ) / 2], x ≤ l.headD 0) ∧
      baseScoreOf [(1 : ℚ) / 2] = min (l.headD 0 + discountedSum l.tail 1) 1) ∧
    rawBaseScore [(1 : ℚ) / 2, (1 : ℚ) / 2] = 3 / 2 * ((1 : ℚ) / 2) ∧
    rawBaseScore [(1 : ℚ) / 2, (1 : ℚ) / 2] < 2 * ((1 : ℚ) / 2) :=
  baseScore_diminishing_returns [(1 : ℚ) / 2] ((1 : ℚ) / 2) (by simp) (by norm_num)

/-- Claim C5: whenever the pre-legitimacy base score is at least 0.55, the
engagement bonus is never more negative than the fixed cap `-0.10`, however
large the engagement count; while with base score below 0.55 and engagement
count at least 100 the full uncapped bonus `-0.25` is granted. -/
theorem engagement_bonus_capping (likes : Int) (base : ℚ) :
    (55 / 100 ≤ base →
      -(1 / 10) ≤ ((engagementSignals likes base).map (fun s => s.bonus)).sum) ∧
    (base < 55 / 100 → 100 ≤ likes →
      ((engagementSignals likes base).map (fun s => s.bonus)).sum = -(1 / 4)) := by
  unfold engagementSignals
  dsimp only
  by_cases h10 : 10 ≤ likes
  · simp only [if_pos h10]
    constructor
    · intro hbase
      simp only [if_pos hbase, List.map_cons, List.map_nil, List.sum_cons, List.sum_nil,
        add_zero]
      exact le_max_right _ _
    · intro hbase h100
      simp only [if_neg (not_le.2 hbase), if_pos h100, List.map_cons, List.map_nil,
        List.sum_cons, List.sum_nil, add_zero]
      norm_num
  · simp only [if_neg h10]
    constructor
    · intro _
      simp only [List.map_nil, List.sum_nil]
      norm_num
    · intro _ h100
      omega

theorem engagement_bonus_capping_witness :
    (-(1 / 10) ≤ ((engagementSignals 1000000 (6 / 10)).map (fun s => s.bonus)).sum) ∧
    ((engagementSignals 100 (1 / 2)).map (fun s => s.bonus)).sum = -(1 / 4) :=
  ⟨(engagement_bonus_capping 1000000 (6 / 10)).1 (by norm_num),
   (engagement_bonus_capping 100 (1 / 2)).2 (by norm_num) (by norm_num)⟩

/-- If the platform-redirect matcher fired, no generic contact-solicitation
signal (category contact-solicitation at weight 0.45) is in the signal list. -/
theorem spamSignals_no_contact {R : Regexes} {text author n : String} {obf : Bool}
    {m : String} (hm : R.platformRedirect n = some m) :
    ∀ s ∈ spamSignals R text author n obf,
      ¬(s.category = SpamCategory.CONTACT_SOLICITATION ∧ s.weight = 45 / 100) := by
  unfold spamSignals
  rw [hm]
  simp only [List.append_assoc, List.forall_mem_append]
  refine ⟨?_, ?_, ?_, ?_, ?_, ?_, ?_, ?_, ?_, ?_, ?_, ?_, ?_, ?_, ?_, ?_⟩
  · exact forall_boolChunk (by norm_num)
  · exact forall_optChunk (fun _ => by norm_num)
  · exact forall_optChunk (fun _ => by simp [cryptoSignalOf])
  · exact forall_optChunk (fun _ => by norm_num)
  · intro s hs
    simp only [List.mem_singleton] at hs
    subst hs
    norm_num
  · exact forall_boolChunk (by norm_num)
  · exact forall_boolChunk (by norm_num)
  · exact forall_optChunk (fun _ => by norm_num)
  · intro s hs
    rw [mem_if_nil] at hs
    rcases List.mem_append.1 hs.2 with h | h
    · rcases mem_boolChunk.1 h with ⟨-, rfl⟩
      norm_num
    · rcases mem_optChunk.1 h with ⟨m', -, rfl⟩
      norm_num
  · exact forall_optChunk (fun _ => by norm_num)
  · exact forall_optChunk (fun _ => by norm_num)
  · exact forall_optChunk (fun _ => by intro h; exact absurd h.1 (by simp))
  · intro s hs
    cases hsu : R.shortenedUrls n with
    | some msu =>
      rw [hsu] at hs
      simp only [List.mem_singleton] at hs
      subst hs
      norm_num
    | none =>
      rw [hsu] at hs
      rcases mem_boolChunk.1 hs with ⟨-, rfl⟩
      norm_num
  · intro s hs
    cases hbt : R.botTemplateMarkers n with
    | some mbt =>
      rw [hbt] at hs
      simp only [List.mem_singleton] at hs
      subst hs
      norm_num
    | none =>
      rw [hbt] at hs
      rcases mem_optChunk.1 hs with ⟨m', -, rfl⟩
      norm_num
  · exact forall_boolChunk (by norm_num)
  · exact forall_optChunk (fun _ => by norm_num)

/-- If the shortened-URL matcher fired, no generic "URL detected" signal
(category self-promotion at weight 0.15) is in the signal list. -/
theorem spamSignals_no_generic_url {R : Regexes} {text author n : String} {obf : Bool}
    {m : String} (hm : R.shortenedUrls n = some m) :
    ∀ s ∈ spamSignals R text author n obf,
      ¬(s.category = SpamCategory.SELF_PROMOTION ∧ s.weight = 15 / 100) := by
  unfold spamSignals
  rw [hm]
  simp only [List.append_assoc, List.forall_mem_append]
  refine ⟨?_, ?_, ?_, ?_, ?_, ?_, ?_, ?_, ?_, ?_, ?_, ?_, ?_, ?_, ?_, ?_⟩
  · exact forall_boolChunk (by norm_num)
  · exact forall_optChunk (fun _ => by norm_num)
  · exact forall_optChunk (fun _ => by simp [cryptoSignalOf])
  · exact forall_optChunk (fun _ => by norm_num)
  · intro s hs
    cases hpr : R.platformRedirect n with
    | some mpr =>
      rw [hpr] at hs
      simp only [List.mem_singleton] at hs
      subst hs
      norm_num
    | none =>
      rw [hpr] at hs
      rcases mem_optChunk.1 hs with ⟨m', -, rfl⟩
      norm_num
  · exact forall_boolChunk (by norm_num)
  · exact forall_boolChunk (by norm_num)
  · exact forall_optChunk (fun _ => by norm_num)
  · intro s hs
    rw [mem_if_nil] at hs
    rcases List.mem_append.1 hs.2 with h | h
    · rcases mem_boolChunk.1 h with ⟨-, rfl⟩
      norm_num
    · rcases mem_optChunk.1 h with ⟨m', -, rfl⟩
      norm_num
  · exact forall_optChunk (fun _ => by norm_num)
  · exact forall_optChunk (fun _ => by norm_num)
  · exact forall_optChunk (fun _ => by norm_num)
  · intro s hs
    simp only [List.mem_singleton] at hs
    subst hs
    norm_num
  · intro s hs
    cases hbt : R.botTemplateMarkers n with
    | some mbt =>
      rw [hbt] at hs
      simp only [List.mem_singleton] at hs
      subst hs
      norm_num
    | none =>
      rw [hbt] at hs
      rcases mem_optChunk.1 hs with ⟨m', -, rfl⟩
      norm_num
  · exact forall_boolChunk (by norm_num)
  · exact forall_optChunk (fun _ => by intro h; exact absurd h.1 (by simp))

/-- If the bot-template-marker matcher fired, no generic bot-enthusiasm
signal (category bot-pattern at weight 0.2) is in the signal list. -/
theorem spamSignals_no_generic_bot {R : Regexes} {text author n : String} {obf : Bool}
    {m : String} (hm : R.botTemplateMarkers n = some m) :
    ∀ s ∈ spamSignals R text author n obf,
      ¬(s.category = SpamCategory.BOT_PATTERN ∧ s.weight = 2 / 10) := by
  unfold spamSignals
  rw [hm]
  simp only [List.append_assoc, List.forall_mem_append]
  refine ⟨?_, ?_, ?_, ?_, ?_, ?_, ?_, ?_, ?_, ?_, ?_, ?_, ?_, ?_, ?_, ?_⟩
  · exact forall_boolChunk (by norm_num)
  · exact forall_optChunk (fun _ => by norm_num)
  · exact forall_optChunk (fun _ => by simp [cryptoSignalOf])
  · exact forall_optChunk (fun _ => by norm_num)
  · intro s hs
    cases hpr : R.platformRedirect n with
    | some mpr =>
      rw [hpr] at hs
      simp only [List.mem_singleton] at hs
      subst hs
      norm_num
    | none =>
      rw [hpr] at hs
      rcases mem_optChunk.1 hs with ⟨m', -, rfl⟩
      norm_num
  · exact forall_boolChunk (by norm_num)
  · exact forall_boolChunk (by intro h; exact absurd h.1 (by simp))
  · exact forall_optChunk (fun _ => by norm_num)
  · intro s hs
    rw [mem_if_nil] at hs
    rcases List.mem_append.1 hs.2 with h | h
    · rcases mem_boolChunk.1 h with ⟨-, rfl⟩
      norm_num
    · rcases mem_optChunk.1 h with ⟨m', -, rfl⟩
      norm_num
  · exact forall_optChunk (fun _ => by norm_num)
  · exact forall_optChunk (fun _ => by norm_num)
  · exact forall_optChunk (fun _ => by norm_num)
  · intro s hs
    cases hsu : R.shortenedUrls n with
    | some msu =>
      rw [hsu] at hs
      simp only [List.mem_singleton] at hs
      subst hs
      norm_num
    | none =>
      rw [hsu] at hs
      rcases mem_boolChunk.1 hs with ⟨-, rfl⟩
      norm_num
  · intro s hs
    simp only [List.mem_singleton] at hs
    subst hs
    norm_num
  · exact forall_boolChunk (by norm_num)
  · exact forall_optChunk (fun _ => by norm_num)

/-- Claim C6: the full pipeline never double-counts the mutually-favoring
checks: a platform-redirect match suppresses the generic contact-solicitation
signal, a shortened-URL match suppresses the generic "URL detected" signal,
and bot-template markers suppress the generic bot-enthusiasm signal.  The
generic signal of each pair is identified by its category and fixed weight
(0.45 contact solicitation, 0.15 self-promotion URL, 0.2 bot phrase). -/
theorem analyze_no_double_counting (R : Regexes) (d : Detector)
    (text author : String) (likes : Int)
    (h1 : text.data.all isPySpace = false)
    (h2 : checkWhitelist d.whitelistPatterns text = false)
    (h3 : checkBlacklist d.blacklistPatterns text = none) :
    ((∃ m, R.platformRedirect (normalizeText text) = some m) →
      ∀ s ∈ (analyze R d text author likes).signals,
        ¬(s.category = SpamCategory.CONTACT_SOLICITATION ∧ s.weight = 45 / 100)) ∧
    ((∃ m, R.shortenedUrls (normalizeText text) = some m) →
      ∀ s ∈ (analyze R d text author likes).signals,
        ¬(s.category = SpamCategory.SELF_PROMOTION ∧ s.weight = 15 / 100)) ∧
    ((∃ m, R.botTemplateMarkers (normalizeText text) = some m) →
      ∀ s ∈ (analyze R d text author likes).signals,
        ¬(s.category = SpamCategory.BOT_PATTERN ∧ s.weight = 2 / 10)) := by
  rw [analyze_eq_full h1 h2 h3]
  refine ⟨?_, ?_, ?_⟩
  · rintro ⟨m, hm⟩
    exact spamSignals_no_contact hm
  · rintro ⟨m, hm⟩
    exact spamSignals_no_generic_url hm
  · rintro ⟨m, hm⟩
    exact spamSignals_no_generic_bot hm

theorem analyze_no_double_counting_witness :
    (∀ s ∈ (analyze pairRegexes stdDetector "hello" "" 0).signals,
      ¬(s.category = SpamCategory.CONTACT_SOLICITATION ∧ s.weight = 45 / 100)) ∧
    (∀ s ∈ (analyze pairRegexes stdDetector "hello" "" 0).signals,
      ¬(s.category = SpamCategory.SELF_PROMOTION ∧ s.weight = 15 / 100)) ∧
    (∀ s ∈ (analyze pairRegexes stdDetector "hello" "" 0).signals,
      ¬(s.category = SpamCategory.BOT_PATTERN ∧ s.weight = 2 / 10)) := by
  obtain ⟨ha, hb, hc⟩ := analyze_no_double_counting pairRegexes stdDetector "hello" "" 0
    rfl rfl rfl
  exact ⟨ha ⟨"t.me/chan", rfl⟩, hb ⟨"bit.ly/x", rfl⟩, hc ⟨"[name]", rfl⟩⟩

/-- Claim C1 counterexample: `analyze` computes the verdict from the
*unrounded* clamped score, not from the rounded `score` field.  With signal
weights 0.45, 0.3, 0.15, 0.15 the final score is 0.65625; against threshold
0.6562 the code classifies spam (0.65625 ≥ 0.6562) while the stored rounded
score 0.656 is below the threshold — so "is_spam iff rounded score ≥
threshold" is false. -/
theorem analyze_rounded_verdict_cex :
    ¬(((analyze cexRegexes cexDetector "hello world" "" 0).is_spam = true) ↔
      (analyze cexRegexes cexDetector "hello world" "" 0).threshold ≤
        (analyze cexRegexes cexDetector "hello world" "" 0).score) := by
  have hw : (fullSignals cexRegexes "hello world" "").map (fun s => s.weight) =
      [45 / 100, 3 / 10, 15 / 100, 15 / 100] := rfl
  have hl : fullLegit cexRegexes "hello world" "" 0 = [] := rfl
  have hbase : fullBase cexRegexes "hello world" "" = 21 / 32 := by
    rw [fullBase, hw]
    norm_num [baseScoreOf, sortDesc, List.insertionSort, List.orderedInsert, discountedSum]
  have hadj : fullAdjustment cexRegexes "hello world" "" 0 = 0 := by
    rw [fullAdjustment, hl]
    simp
  have hfin : finalScore cexRegexes "hello world" "" 0 = 21 / 32 := by
    rw [finalScore, hbase, hadj]
    norm_num
  have hthr : cexDetector.threshold = 3281 / 5000 := by
    norm_num [cexDetector, mkDetector]
  have hscore : round3 ((21 : ℚ) / 32) = 82 / 125 := by
    norm_num [round3, roundHalfEven]
  intro hiff
  have hspam : (analyze cexRegexes cexDetector "hello world" "" 0).is_spam = true := by
    show decide (cexDetector.threshold ≤ finalScore cexRegexes "hello world" "" 0) = true
    rw [decide_eq_true_eq, hfin, hthr]
    norm_num
  have hlt : (analyze cexRegexes cexDetector "hello world" "" 0).score <
      (analyze cexRegexes cexDetector "hello world" "" 0).threshold := by
    show round3 (finalScore cexRegexes "hello world" "" 0) < cexDetector.threshold
    rw [hfin, hthr, hscore]
    norm_num
  exact absurd (hiff.mp hspam) (not_le.2 hlt)

/-- Claim C1 (amended): on the full pipeline the stored score is the
legitimacy-adjusted base score clamped to [0,1] and rounded to 3 decimal
places, it lies in [0,1], and `is_spam` holds iff the clamped
(*pre-rounding*) score reaches the stored threshold. -/
theorem analyze_score_clamped_rounded (R : Regexes) (d : Detector)
    (text author : String) (likes : Int)
    (h1 : text.data.all isPySpace = false)
    (h2 : checkWhitelist d.whitelistPatterns text = false)
    (h3 : checkBlacklist d.blacklistPatterns text = none) :
    0 ≤ (analyze R d text author likes).score ∧
    (analyze R d text author likes).score ≤ 1 ∧
    (analyze R d text author likes).score =
      round3 (max 0 (min 1
        (baseScoreOf ((analyze R d text author likes).signals.map (fun s => s.weight)) +
          (((analyze R d text author likes).legitimacy_signals.map (fun s => s.bonus)).sum)))) ∧
    ((analyze R d text author likes).is_spam = true ↔
      (analyze R d text author likes).threshold ≤ max 0 (min 1
        (baseScoreOf ((analyze R d text author likes).signals.map (fun s => s.weight)) +
          (((analyze R d text author likes).legitimacy_signals.map (fun s => s.bonus)).sum)))) := by
  rw [analyze_eq_full h1 h2 h3]
  refine ⟨round3_nonneg (le_max_left _ _),
    round3_le_one (max_le zero_le_one (min_le_left _ _)), rfl, ?_⟩
  exact decide_eq_true_iff

theorem analyze_score_clamped_rounded_witness :
    0 ≤ (analyze noMatchRegexes stdDetector "hi" "" 0).score ∧
    (analyze noMatchRegexes stdDetector "hi" "" 0).score ≤ 1 ∧
    (analyze noMatchRegexes stdDetector "hi" "" 0).score =
      round3 (max 0 (min 1
        (baseScoreOf ((analyze noMatchRegexes stdDetector "hi" "" 0).signals.map
            (fun s => s.weight)) +
          (((analyze noMatchRegexes stdDetector "hi" "" 0).legitimacy_signals.map
            (fun s => s.bonus)).sum)))) ∧
    ((analyze noMatchRegexes stdDetector "hi" "" 0).is_spam = true ↔
      (analyze noMatchRegexes stdDetector "hi" "" 0).threshold ≤ max 0 (min 1
        (baseScoreOf ((analyze noMatchRegexes stdDetector "hi" "" 0).signals.map
            (fun s => s.weight)) +
          (((analyze noMatchRegexes stdDetector "hi" "" 0).legitimacy_signals.map
            (fun s => s.bonus)).sum)))) :=
  analyze_score_clamped_rounded noMatchRegexes stdDetector "hi" "" 0 rfl rfl rfl

/-- Claim C8 counterexample: the token "abcde.." (length 7, two punctuation
characters, five alphanumerics) has its punctuation stripped by the code
(`2 >= 5 * 0.4`), although the punctuation makes up only 2/7 < 40% of the
token — so "strips exactly when punctuation is at least 40% of the token" is
false of the code. -/
theorem deobfuscate_token_ratio_cex :
    deobfuscateWord "abcde..".data ≠ "abcde..".data ∧
    ¬(2 * ("abcde..".data.length) ≤ 5 * punctCount "abcde..".data) := by decide

/-- Claim C8 (amended): the deobfuscation step strips the punctuation
characters (period, quote, hyphen, underscore, backtick) from a
whitespace-delimited token exactly when the token has length at least 5,
contains at least 2 of those punctuation characters, and the punctuation
count is at least 40% of the number of alphanumeric characters of the token
(not 40% of the token length); every other token is left untouched. -/
theorem cryptoWeight_shift (c : ℕ) (hc : 1 ≤ c) :
    min ((35 : ℚ) / 100 + (c : ℚ) * (8 / 100)) (65 / 100)
      = min ((43 : ℚ) / 100 + ((c - 1 : ℕ) : ℚ) * (8 / 100)) (65 / 100) := by
  have hcast : ((c - 1 : ℕ) : ℚ) = (c : ℚ) - 1 := by push_cast [hc]; ring
  rw [hcast]
  have : (35 : ℚ) / 100 + (c : ℚ) * (8 / 100) = 43 / 100 + ((c : ℚ) - 1) * (8 / 100) := by
    ring
  rw [this]

theorem crypto_mem_spamSignals {R : Regexes} {text author n : String} {obf : Bool}
    {m : String} (hm : cryptoSearch n = some m) :
    cryptoSignalOf n m ∈ spamSignals R text author n obf := by
  unfold spamSignals
  simp [List.mem_append, mem_optChunk, mem_boolChunk, hm]

/-- Claim C7: whenever the crypto-keyword matcher fires on the normalized
text, the resulting crypto-scam signal's weight is the single-match base
weight 0.43 plus 0.08 for every additional match, and it never exceeds the
ceiling 0.65, no matter how many (possibly repeated) matches occur. -/
theorem analyze_crypto_weight_scaling (R : Regexes) (d : Detector)
    (text author : String) (likes : Int) (m : String)
    (h1 : text.data.all isPySpace = false)
    (h2 : checkWhitelist d.whitelistPatterns text = false)
    (h3 : checkBlacklist d.blacklistPatterns text = none)
    (hm : cryptoSearch (normalizeText text) = some m) :
    ∃ s ∈ (analyze R d text author likes).signals,
      s.category = SpamCategory.CRYPTO_SCAM ∧
      s.weight = min ((43 : ℚ) / 100 +
        ((cryptoCount (normalizeText text) - 1 : ℕ) : ℚ) * (8 / 100)) (65 / 100) ∧
      s.weight ≤ 65 / 100 := by
  rw [analyze_eq_full h1 h2 h3]
  have hc : 1 ≤ cryptoCount (normalizeText text) := cryptoSearch_isSome_count hm
  refine ⟨cryptoSignalOf (normalizeText text) m, crypto_mem_spamSignals hm, ?_, ?_, ?_⟩
  · rfl
  · simp only [cryptoSignalOf]
    exact cryptoWeight_shift _ hc
  · simp only [cryptoSignalOf]
    exact min_le_right _ _

set_option maxHeartbeats 2000000 in
theorem analyze_crypto_weight_scaling_witness :
    ∃ s ∈ (analyze noMatchRegexes stdDetector "bitcoin" "" 0).signals,
      s.category = SpamCategory.CRYPTO_SCAM ∧
      s.weight = min ((43 : ℚ) / 100 +
        ((cryptoCount (normalizeText "bitcoin") - 1 : ℕ) : ℚ) * (8 / 100)) (65 / 100) ∧
      s.weight ≤ 65 / 100 :=
  analyze_crypto_weight_scaling noMatchRegexes stdDetector "bitcoin" "" 0 "bitcoin"
    rfl rfl rfl rfl

/-- Claim C2: a non-blank message obtained by substituting one or more
confusable Cyrillic/Greek letters into a text whose normalized form matches a
crypto-scam keyword, and which matches no custom allow- or deny-phrase, still
receives the crypto-scam spam signal (matching runs on the normalized text),
and the decision record's `had_obfuscation` field is true. -/
theorem analyze_homoglyph_crypto_signal (R : Regexes) (d : Detector)
    (t t' author : String) (likes : Int)
    (hrel : homoglyphSubstB t'.data t.data = true)
    (hsub : ∃ c ∈ t'.data, (cyrillicToLatin c).isSome)
    (hwl : checkWhitelist d.whitelistPatterns t' = false)
    (hbl : checkBlacklist d.blacklistPatterns t' = none)
    (hcr : (cryptoSearch (normalizeText t)).isSome) :
    (∃ s ∈ (analyze R d t' author likes).signals,
       s.category = SpamCategory.CRYPTO_SCAM) ∧
    (analyze R d t' author likes).had_obfuscation = true := by
  obtain ⟨c, hc, hcsome⟩ := hsub
  have hne := homoglyph_not_blank hc hcsome
  have hobf := hasHomoglyph_of_mem hc hcsome
  have hnorm := normalizeText_homoglyphSubst hrel
  rw [analyze_eq_full hne hwl hbl]
  obtain ⟨m, hm⟩ := Option.isSome_iff_exists.1 hcr
  have hm' : cryptoSearch (normalizeText t') = some m := by rw [hnorm]; exact hm
  exact ⟨⟨cryptoSignalOf (normalizeText t') m, crypto_mem_spamSignals hm', rfl⟩, hobf⟩

set_option maxHeartbeats 2000000 in
theorem analyze_homoglyph_crypto_signal_witness :
    (∃ s ∈ (analyze noMatchRegexes stdDetector hgBitcoin "" 0).signals,
       s.category = SpamCategory.CRYPTO_SCAM) ∧
    (analyze noMatchRegexes stdDetector hgBitcoin "" 0).had_obfuscation = true :=
  analyze_homoglyph_crypto_signal noMatchRegexes stdDetector "bitcoin" hgBitcoin "" 0
    rfl (by decide) rfl rfl rfl

theorem deobfuscate_word_characterization (w : List Char) :
    deobfuscateWord w =
      if 5 ≤ w.length ∧ 2 ≤ punctCount w ∧ 2 * alnumCount w ≤ 5 * punctCount w
      then w.filter (fun c => !deobfPunct.contains c) else w := by
  unfold deobfuscateWord
  split_ifs with h1 h2 h3 h4 h5 <;>
    first
    | rfl
    | (exfalso
       simp only [Bool.and_eq_true, decide_eq_true_eq] at *
       omega)

end SpamFilter
